import Mathlib

/-!
Verification of the accessible-soundbox USB import system.

This file gives a shallow embedding of `usb_manager.py` and `watch_usb.py`
and proves properties of the embedded functions.

Modelling conventions:
* Python strings are Lean `String`s; the Python string methods used by the
  source (`strip`, `lower`, `startswith`, `splitlines`) are re-implemented
  over `String.data` (`List Char`) so that every definition evaluates inside
  the kernel.  `strip`/`splitlines` are modelled for the ASCII whitespace and
  the newline separator actually occurring in the protocol files.
* Filesystem state is explicit: a file is `Option` of its content (`none`
  means the file is absent), a directory is `Option` of its entry list.
* External commands (`reboot`, `mount`, `umount`, copying, unlinking,
  opening the log) can fail; failure is injected through boolean flags on
  the modelled entries/environments, and an operation the Python source
  does not wrap in `try`/`except` is modelled in `Except`, so that a raised
  exception is visible as an `Except.error` result.
* Side effects (log lines, speech, sync, the reboot command) are recorded
  as an event trace.
-/

/-! ## Python string primitives over `List Char` -/

/-- ASCII whitespace as recognised by Python `str.strip()` on the protocol
files (space, tab, newline, carriage return, vertical tab, form feed). -/
def chIsSpace (c : Char) : Bool :=
  c.toNat = 32 || c.toNat = 9 || c.toNat = 10 || c.toNat = 13 ||
  c.toNat = 11 || c.toNat = 12

/-- Strip leading and trailing whitespace from a character list. -/
def stripChars (cs : List Char) : List Char :=
  ((cs.dropWhile chIsSpace).reverse.dropWhile chIsSpace).reverse

/-- Python `str.strip()`. -/
def pyStrip (s : String) : String := String.mk (stripChars s.data)

/-- Lower-case one character (ASCII range, which covers the protocol
headers compared by the source). -/
def chLower (c : Char) : Char :=
  if 65 ≤ c.toNat ∧ c.toNat ≤ 90 then Char.ofNat (c.toNat + 32) else c

/-- Python `str.lower()`. -/
def pyLower (s : String) : String := String.mk (s.data.map chLower)

/-- `isLeading pat cs` is true when `pat` is an initial segment of `cs`. -/
def isLeading : List Char → List Char → Bool
  | [], _ => true
  | _ :: _, [] => false
  | a :: as, b :: bs => a == b && isLeading as bs

/-- Python `s.startswith(pat)`. -/
def pyStartsWith (s pat : String) : Bool := isLeading pat.data s.data

/-- Worker for `pySplitLines`: `acc` holds the current (reversed) line. -/
def splitLinesGo (acc : List Char) : List Char → List String
  | [] => if acc.isEmpty then [] else [String.mk acc.reverse]
  | c :: cs =>
    if c == '\n' then String.mk acc.reverse :: splitLinesGo [] cs
    else splitLinesGo (c :: acc) cs

/-- Python `str.splitlines()` for `\n`-separated text (the only separator
occurring in the protocol files): a trailing newline does not produce an
extra empty line, and the empty string has no lines. -/
def pySplitLines (s : String) : List String := splitLinesGo [] s.data

/-! ## Protocol store: the deletion parser (`parse_deletion_from_library`)

Source: `src/usb_manager.py`, lines 46–72.  A file is modelled as
`Option (List String)`: `none` when `library_path.exists()` is false,
otherwise the list of its lines (the Python loop strips each line, so
dropping the terminators in the model is faithful). -/

/-- The section cursor of the parser. -/
inductive LibSec where
  | inventory : LibSec
  | deletion : LibSec
deriving DecidableEq, Repr

/-- The loop body of `parse_deletion_from_library`, one constructor tested
in the order the Python source tests them. -/
def parseDelGo (sec : Option LibSec) : List String → List String
  | [] => []
  | line :: rest =>
    let stripped := pyStrip line
    if pyStartsWith (pyLower stripped) "inventory" then
      parseDelGo (some LibSec.inventory) rest
    else if pyStartsWith (pyLower stripped) "deletion" then
      parseDelGo (some LibSec.deletion) rest
    else if stripped = "" then
      parseDelGo sec rest
    else if sec = some LibSec.deletion ∧ pyStartsWith stripped "." = false
            ∧ pyStartsWith stripped "#" = false then
      stripped :: parseDelGo sec rest
    else
      parseDelGo sec rest

/-- `parse_deletion_from_library`: absent file yields `[]`, otherwise the
line loop starting with no current section. -/
def parse_deletion_from_library : Option (List String) → List String
  | none => []
  | some lines => parseDelGo none lines

/-! Specification-side view of the parser, used to state that the collected
entries are exactly the non-blank, non-comment lines lying in the deletion
section: each line is annotated with the value of the section cursor in
force for it, and the result is a `filterMap` over that annotation. -/

/-- Is this line a section header (its stripped, lower-cased form starts
with `inventory` or `deletion`)? -/
def isHeaderLine (line : String) : Bool :=
  pyStartsWith (pyLower (pyStrip line)) "inventory" ||
  pyStartsWith (pyLower (pyStrip line)) "deletion"

/-- The section cursor after seeing `line`. -/
def secAfter (sec : Option LibSec) (line : String) : Option LibSec :=
  if pyStartsWith (pyLower (pyStrip line)) "inventory" then some LibSec.inventory
  else if pyStartsWith (pyLower (pyStrip line)) "deletion" then some LibSec.deletion
  else sec

/-- Annotate every line with the section in which it lies (for a header
line, the section it opens; headers are never collected anyway). -/
def annotateSec (sec : Option LibSec) : List String → List (Option LibSec × String)
  | [] => []
  | line :: rest => (secAfter sec line, line) :: annotateSec (secAfter sec line) rest

/-- A line is collected iff it is not a header, not blank after stripping,
lies in the deletion section, and does not start with `.` or `#`; the
collected value is its stripped form. -/
def collectedLine : Option LibSec × String → Option String := fun p =>
  let stripped := pyStrip p.2
  if isHeaderLine p.2 = false ∧ stripped ≠ "" ∧ p.1 = some LibSec.deletion
      ∧ pyStartsWith stripped "." = false ∧ pyStartsWith stripped "#" = false then
    some stripped
  else none

/-- One step of the parser loop, phrased through the annotation view. -/
theorem parseDelGo_cons (sec : Option LibSec) (line : String) (rest : List String) :
    parseDelGo sec (line :: rest) =
      (match collectedLine (secAfter sec line, line) with
       | some s => s :: parseDelGo (secAfter sec line) rest
       | none => parseDelGo (secAfter sec line) rest) := by
  by_cases hinv : pyStartsWith (pyLower (pyStrip line)) "inventory" = true
  · have hsec : secAfter sec line = some LibSec.inventory := by simp [secAfter, hinv]
    have hcol : collectedLine (some LibSec.inventory, line) = none := by
      simp [collectedLine]
    rw [hsec, hcol]
    simp only [parseDelGo]
    rw [if_pos hinv]
  · by_cases hdel : pyStartsWith (pyLower (pyStrip line)) "deletion" = true
    · have hsec : secAfter sec line = some LibSec.deletion := by simp [secAfter, hinv, hdel]
      have hcol : collectedLine (some LibSec.deletion, line) = none := by
        simp [collectedLine, isHeaderLine, hdel]
      rw [hsec, hcol]
      simp only [parseDelGo]
      rw [if_neg hinv, if_pos hdel]
    · have hsec : secAfter sec line = sec := by simp [secAfter, hinv, hdel]
      have hhdr : isHeaderLine line = false := by simp [isHeaderLine, hinv, hdel]
      by_cases hblank : pyStrip line = ""
      · have hcol : collectedLine (sec, line) = none := by simp [collectedLine, hblank]
        rw [hsec, hcol]
        simp only [parseDelGo]
        rw [if_neg hinv, if_neg hdel, if_pos hblank]
      · by_cases hkeep : sec = some LibSec.deletion
            ∧ pyStartsWith (pyStrip line) "." = false
            ∧ pyStartsWith (pyStrip line) "#" = false
        · have hcol : collectedLine (sec, line) = some (pyStrip line) := by
            simp only [collectedLine]
            rw [if_pos ⟨hhdr, hblank, hkeep.1, hkeep.2.1, hkeep.2.2⟩]
          rw [hsec, hcol]
          simp only [parseDelGo]
          rw [if_neg hinv, if_neg hdel, if_neg hblank, if_pos hkeep]
        · have hcol : collectedLine (sec, line) = none := by
            simp only [collectedLine]
            rw [if_neg]
            intro hc
            exact hkeep ⟨hc.2.2.1, hc.2.2.2.1, hc.2.2.2.2⟩
          rw [hsec, hcol]
          simp only [parseDelGo]
          rw [if_neg hinv, if_neg hdel, if_neg hblank, if_neg hkeep]

theorem parseDelGo_eq_filterMap (lines : List String) : ∀ sec : Option LibSec,
    parseDelGo sec lines = (annotateSec sec lines).filterMap collectedLine := by
  induction lines with
  | nil => intro sec; rfl
  | cons line rest ih =>
    intro sec
    rw [parseDelGo_cons, annotateSec, List.filterMap_cons]
    cases hc : collectedLine (secAfter sec line, line) <;> simp [hc, ih]

/-- C4: for every `library.txt`, `parse_deletion_from_library` returns, in
file order with duplicates preserved, exactly the stripped non-blank lines
lying in the deletion section (the cursor switching on header lines whose
trimmed case-folded form starts with `inventory` or `deletion`) that do not
start with `.` or `#`; an absent file yields `[]`; and the concrete
`Deletion:` section `a.mp3`, `#skip.mp3`, blank, `b.mp3` parses to exactly
`["a.mp3", "b.mp3"]`. -/
theorem parse_deletion_spec :
    (∀ lines : List String,
      parse_deletion_from_library (some lines)
        = (annotateSec none lines).filterMap collectedLine)
    ∧ parse_deletion_from_library none = []
    ∧ parse_deletion_from_library
        (some ["Inventory:", "x.mp3", "", "Deletion:", "a.mp3", "#skip.mp3", "", "b.mp3"])
      = ["a.mp3", "b.mp3"] :=
  ⟨fun lines => parseDelGo_eq_filterMap lines none, rfl, by decide⟩

/-! ## The string order used by Python `sorted` -/

/-- Strict comparison of characters by code point. -/
def chLt (a b : Char) : Bool := a.toNat < b.toNat

/-- Lexicographic comparison of character lists by code point — the order
in which Python compares `str` values. -/
def clLe : List Char → List Char → Bool
  | [], _ => true
  | _ :: _, [] => false
  | a :: as, b :: bs => if chLt a b then true else if chLt b a then false else clLe as bs

/-- Case-sensitive lexical order on strings. -/
def strLe (a b : String) : Bool := clLe a.data b.data

/-- `strLe` as a relation, for `List.insertionSort`. -/
def strLeP (a b : String) : Prop := strLe a b = true

instance : DecidableRel strLeP := fun a b => instDecidableEqBool (strLe a b) true

theorem clLe_cons_iff (x y : Char) (xs ys : List Char) :
    clLe (x :: xs) (y :: ys) = true
      ↔ (x.toNat < y.toNat ∨ (x.toNat = y.toNat ∧ clLe xs ys = true)) := by
  simp only [clLe, chLt, decide_eq_true_eq]
  by_cases h1 : x.toNat < y.toNat
  · simp [h1]
  · by_cases h2 : y.toNat < x.toNat
    · simp only [if_neg h1, if_pos h2]
      constructor
      · intro h
        exact absurd h (by simp)
      · intro h
        exfalso
        rcases h with h | ⟨h, _⟩ <;> omega
    · have heq : x.toNat = y.toNat := by omega
      simp [h1, h2, heq]

theorem clLe_trans (a : List Char) : ∀ b c : List Char,
    clLe a b = true → clLe b c = true → clLe a c = true := by
  induction a with
  | nil => intro b c _ _; rfl
  | cons x xs ih =>
    intro b c hab hbc
    cases b with
    | nil => exact absurd hab (by simp [clLe])
    | cons y ys =>
      cases c with
      | nil => exact absurd hbc (by simp [clLe])
      | cons z zs =>
        rcases (clLe_cons_iff x y xs ys).mp hab with h1 | h1 <;>
          rcases (clLe_cons_iff y z ys zs).mp hbc with h2 | h2
        · exact (clLe_cons_iff x z xs zs).mpr (Or.inl (by omega))
        · exact (clLe_cons_iff x z xs zs).mpr (Or.inl (by omega))
        · exact (clLe_cons_iff x z xs zs).mpr (Or.inl (by omega))
        · exact (clLe_cons_iff x z xs zs).mpr
            (Or.inr ⟨by omega, ih ys zs h1.2 h2.2⟩)

theorem clLe_total (a : List Char) : ∀ b : List Char,
    clLe a b = true ∨ clLe b a = true := by
  induction a with
  | nil => intro b; exact Or.inl rfl
  | cons x xs ih =>
    intro b
    cases b with
    | nil => exact Or.inr rfl
    | cons y ys =>
      rcases Nat.lt_trichotomy x.toNat y.toNat with h | h | h
      · exact Or.inl ((clLe_cons_iff x y xs ys).mpr (Or.inl h))
      · rcases ih ys with h2 | h2
        · exact Or.inl ((clLe_cons_iff x y xs ys).mpr (Or.inr ⟨h, h2⟩))
        · exact Or.inr ((clLe_cons_iff y x ys xs).mpr (Or.inr ⟨h.symm, h2⟩))
      · exact Or.inr ((clLe_cons_iff y x ys xs).mpr (Or.inl h))

instance : IsTrans String strLeP := ⟨fun a b c => clLe_trans a.data b.data c.data⟩

instance : IsTotal String strLeP := ⟨fun a b => clLe_total a.data b.data⟩

/-! ## Import Job model (`usb_manager.py`)

Side effects are recorded as events.  `Ev.rebootCmd` marks the attempt to
run the `reboot` command (the source wraps it in `try`/`except`, so the
attempt itself never propagates an exception); `Ev.wroteRebootFile` marks a
rewrite of `Reboot.txt` (the source catches write errors inside
`ensure_reboot_file`/`restore_reboot_file`, so the model lets these writes
succeed). -/

/-- Observable events of one Import Job run. -/
inductive Ev where
  | logged (msg : String) : Ev
  | spoke (msg : String) : Ev
  | synced : Ev
  | rebootCmd : Ev
  | wroteRebootFile : Ev
  | copied (name : String) : Ev
  | removedFile (name : String) : Ev
  | libraryWritten : Ev
deriving DecidableEq, Repr

/-- The literal `REBOOT_FILE_DEFAULT` of the source (line 1 instructional
text, line 2 the placeholder `– Reboot`, trailing newline). -/
def REBOOT_FILE_DEFAULT : String :=
  "### Remove the \"–\" before Reboot to reboot the soundbox. ###\n– Reboot\n"

/-- `ensure_reboot_file`: create the default file only when it is absent. -/
def ensure_reboot_file (f : Option String) : Option String × List Ev :=
  match f with
  | some c => (some c, [])
  | none => (some REBOOT_FILE_DEFAULT,
      [Ev.wroteRebootFile, Ev.logged "Created default Reboot.txt"])

/-- `check_reboot_trigger`: false for an absent file or fewer than two
lines, else whether line 2 strips to exactly `Reboot`. -/
def check_reboot_trigger (f : Option String) : Bool :=
  match f with
  | none => false
  | some content =>
    let lines := pySplitLines content
    if lines.length < 2 then false
    else pyStrip (lines.getD 1 "") = "Reboot"

/-- `restore_reboot_file`: rewrite the file to the default text. -/
def restore_reboot_file : Option String × List Ev :=
  (some REBOOT_FILE_DEFAULT,
   [Ev.wroteRebootFile, Ev.logged "Restored Reboot.txt to default format"])

/-- `handle_reboot_file`: ensure the file, and on a trigger restore it
first, then announce, sync, log, and attempt the reboot command (a failing
command is logged, not propagated — `rebootFails` injects that failure).
Returns the new file, whether a reboot was triggered, and the events. -/
def handle_reboot_file (f : Option String) (rebootFails : Bool) :
    Option String × Bool × List Ev :=
  let e := ensure_reboot_file f
  if check_reboot_trigger e.1 then
    let r := restore_reboot_file
    (r.1, true,
      e.2 ++ [Ev.logged "Reboot trigger detected via Reboot.txt"] ++ r.2
        ++ [Ev.spoke "Rebooting now.", Ev.synced, Ev.logged "Rebooting now…", Ev.rebootCmd]
        ++ (if rebootFails then [Ev.logged "Reboot error"] else []))
  else (e.1, false, e.2)

/-- A file in the volume's `Add/` directory.  `copyFails` injects a
`shutil.copy2` failure (unreadable source, permission error). -/
structure AddEntry where
  name : String
  isFile : Bool
  copyFails : Bool
deriving DecidableEq, Repr

/-- An entry of the content store.  `unlinkFails` injects an `unlink`
failure (permission error, or the entry being a directory). -/
structure StoreEntry where
  name : String
  isFile : Bool
  unlinkFails : Bool
deriving DecidableEq, Repr

/-- `shutil.copy2 src (dst_dir / src.name)`: overwrite a same-named entry
or append a new regular file. -/
def storePut (es : List StoreEntry) (n : String) : List StoreEntry :=
  if es.any (fun e => e.name == n) then
    es.map (fun e =>
      if e.name == n then { name := n, isFile := true, unlinkFails := e.unlinkFails } else e)
  else es ++ [{ name := n, isFile := true, unlinkFails := false }]

/-- `safe_copy`: make the destination directory, copy (no `try`/`except`
in the source — a failure propagates as `Except.error`), and log. -/
def safe_copy (entry : AddEntry) (dstDir : Option (List StoreEntry)) :
    Except String (List StoreEntry × List Ev) :=
  let es := dstDir.getD []
  if entry.copyFails then Except.error ("copy failed: " ++ entry.name)
  else Except.ok (storePut es entry.name,
    [Ev.copied entry.name, Ev.logged ("Copied: " ++ entry.name)])

/-- The additions loop of `process_usb` step 1: copy every regular,
non-hidden file of `Add/`, tracking whether anything was added. -/
def addLoop : List AddEntry → Option (List StoreEntry) → Bool →
    Except String (Option (List StoreEntry) × Bool × List Ev)
  | [], store, added => Except.ok (store, added, [])
  | entry :: rest, store, added =>
    if entry.isFile = true ∧ pyStartsWith entry.name "." = false then
      match safe_copy entry store with
      | Except.error msg => Except.error msg
      | Except.ok (es, evs) =>
        match addLoop rest (some es) true with
        | Except.error msg => Except.error msg
        | Except.ok (store2, added2, evs2) => Except.ok (store2, added2, evs ++ evs2)
    else addLoop rest store added

/-- `safe_delete`: if a same-named entry exists, unlink it (no
`try`/`except` in the source — a failure propagates) and log; otherwise
report `false` without error. -/
def safe_delete (n : String) (targetDir : Option (List StoreEntry)) :
    Except String (Option (List StoreEntry) × Bool × List Ev) :=
  match targetDir with
  | none => Except.ok (none, false, [])
  | some es =>
    match es.find? (fun e => e.name == n) with
    | none => Except.ok (some es, false, [])
    | some e =>
      if e.unlinkFails then Except.error ("unlink failed: " ++ n)
      else Except.ok (some (es.filter (fun e2 => e2.name ≠ n)), true,
        [Ev.removedFile n, Ev.logged ("Deleted: " ++ n)])

/-- The deletions loop of `process_usb` step 2. -/
def delLoop : List String → Option (List StoreEntry) → Bool →
    Except String (Option (List StoreEntry) × Bool × List Ev)
  | [], store, deleted => Except.ok (store, deleted, [])
  | n :: rest, store, deleted =>
    match safe_delete n store with
    | Except.error msg => Except.error msg
    | Except.ok (store2, did, evs) =>
      match delLoop rest store2 (deleted || did) with
      | Except.error msg => Except.error msg
      | Except.ok (store3, deleted3, evs2) => Except.ok (store3, deleted3, evs ++ evs2)

/-- The names the inventory rewrite lists: regular, non-hidden entries of
the content store (an absent directory lists nothing). -/
def storeNames (store : Option (List StoreEntry)) : List String :=
  match store with
  | none => []
  | some es => (es.filter (fun e => e.isFile && !(pyStartsWith e.name "."))).map StoreEntry.name

/-- The full rewritten `library.txt`, line by line: `Inventory:` header,
the sorted store names, a blank separator, and a bare `Deletion:` header.
`List.insertionSort strLeP` is a stable sort by the code-point order, the
sort `sorted` performs on `str`. -/
def libraryLines (store : Option (List StoreEntry)) : List String :=
  "Inventory:" :: (List.insertionSort strLeP (storeNames store) ++ ["", "Deletion:"])

/-- Failure injection for one Import Job run. -/
structure JobEnv where
  rebootFails : Bool
  libraryWriteFails : Bool
deriving DecidableEq, Repr

/-- The state `process_usb` reads and writes: the mounted volume
(`Reboot.txt`, `Add/`, `library.txt`) and the local content store. -/
structure SysState where
  usbMounted : Bool
  rebootFile : Option String
  addDir : Option (List AddEntry)
  libraryFile : Option (List String)
  audioDir : Option (List StoreEntry)
deriving DecidableEq, Repr

/-- `write_library_to_usb`: skip (with a log line) when the mountpoint is
gone; its body is wrapped in `try`/`except`, so an injected write failure
is logged and swallowed, leaving the file as it was. -/
def write_library_to_usb (st : SysState) (env : JobEnv) : SysState × List Ev :=
  if st.usbMounted = false then
    (st, [Ev.logged "USB mount not found; skipping library write"])
  else if env.libraryWriteFails then
    (st, [Ev.logged "Error writing library file"])
  else
    ({ st with libraryFile := some (libraryLines st.audioDir) },
     [Ev.libraryWritten, Ev.logged "Updated library.txt"])

/-- Step 1 of `process_usb`: `if add_dir.exists():` run the additions
loop (an absent `Add/` directory skips the step). -/
def addStep (entries? : Option (List AddEntry)) (store : Option (List StoreEntry)) :
    Except String (Option (List StoreEntry) × Bool × List Ev) :=
  match entries? with
  | none => Except.ok (store, false, [])
  | some entries => addLoop entries store false

/-- Step 2 of `process_usb`: parse the deletion requests and, when there
are any, run the deletions loop. -/
def delStep (lib : Option (List String)) (store : Option (List StoreEntry)) :
    Except String (Option (List StoreEntry) × Bool × List Ev) :=
  let toDelete := parse_deletion_from_library lib
  if toDelete.isEmpty then Except.ok (store, false, [])
  else delLoop toDelete store false

/-- `process_usb`: reboot handling first (short-circuiting on a trigger),
then additions (announcing when anything was added), deletions (logging
the request list and announcing when anything was deleted), and the
inventory rewrite.  Only the operations the source leaves un-protected can
yield `Except.error`. -/
def process_usb (st : SysState) (env : JobEnv) : Except String (SysState × List Ev) :=
  let hr := handle_reboot_file st.rebootFile env.rebootFails
  let st0 : SysState := { st with rebootFile := hr.1 }
  if hr.2.1 then Except.ok (st0, hr.2.2)
  else
    match addStep st0.addDir st0.audioDir with
    | Except.error msg => Except.error msg
    | Except.ok (store1, added, evs1) =>
      let evs1b := evs1 ++ (if added then [Ev.spoke "New books added"] else [])
      let st1 : SysState := { st0 with audioDir := store1 }
      let toDelete := parse_deletion_from_library st1.libraryFile
      match delStep st1.libraryFile st1.audioDir with
      | Except.error msg => Except.error msg
      | Except.ok (store2, deleted, evs2) =>
        let evs2b := (if toDelete.isEmpty then [] else [Ev.logged "Requested deletions"])
            ++ evs2 ++ (if deleted then [Ev.spoke "Books deleted"] else [])
        let st2 : SysState := { st1 with audioDir := store2 }
        let wr := write_library_to_usb st2 env
        Except.ok (wr.1, hr.2.2 ++ evs1b ++ evs2b ++ wr.2)

/-! ## Device Watcher model (`watch_usb.py`)

The `lsblk -J` output tree is a list of JSON objects, each with optional
`name`, `path`, `rm`, `mountpoint` fields and a `children` list.  The tree
is embedded in first-child/next-sibling form so every recursion below is
structural: `DevForest.node name path rm mountpoint children rest` is the
head of a device list, `children` its partitions, `rest` its later
siblings.  Every field is `Option`al because `walk` reads them with
`dict.get`. -/

inductive DevForest where
  | nil : DevForest
  | node (name path : Option String) (rm : Option Nat) (mountpoint : Option String)
      (children : DevForest) (rest : DevForest) : DevForest
deriving DecidableEq, Repr

/-- ASCII digit test (Python `str.isdigit` on device names). -/
def chIsDigit (c : Char) : Bool := 48 ≤ c.toNat && c.toNat ≤ 57

/-- The condition of `walk`: `rm == 1 and name and name[-1].isdigit() and
(mnt is None or mnt == "")`. -/
def devMatches (name : Option String) (rm : Option Nat) (mnt : Option String) : Bool :=
  (rm == some 1)
    && (match name with
        | none => false
        | some s => !(s == "") && chIsDigit (s.data.getLastD 'a'))
    && (mnt == none || mnt == some "")

/-- The nested `walk` of `find_usb_partition`: return the matching node's
path, else recurse into the children; a child result is returned only when
it is truthy (Python `if res:` — `None` and `""` fall through to the next
sibling), else continue with the siblings. -/
def walk : DevForest → Option String
  | DevForest.nil => none
  | DevForest.node name path rm mnt children rest =>
    if devMatches name rm mnt then path
    else
      match children with
      | DevForest.nil => walk rest
      | DevForest.node .. =>
        match walk children with
        | some r => if r == "" then walk rest else some r
        | none => walk rest

/-- Events of the Watcher loop. -/
inductive WEv where
  | wlog (msg : String) : WEv
  | mkdirMountpoint : WEv
  | mounted (dev : String) : WEv
  | importRan : WEv
  | wsynced : WEv
  | unmounted (dev : String) : WEv
deriving DecidableEq, Repr

/-- `find_usb_partition`: an erroring `lsblk` invocation is caught, logged
and yields `none`; otherwise `walk` over the decoded tree. -/
def find_usb_partition (lsblkResult : Except String DevForest) :
    Option String × List WEv :=
  match lsblkResult with
  | Except.error e => (none, [WEv.wlog ("lsblk failed: " ++ e)])
  | Except.ok forest => (walk forest, [])

/-- A flattened view of one enumerated node, for the specification side. -/
structure DevNode where
  name : Option String
  path : Option String
  rm : Option Nat
  mountpoint : Option String
deriving DecidableEq, Repr

/-- Pre-order (depth-first, node before children before later siblings)
flattening of the device tree. -/
def preorderNodes : DevForest → List DevNode
  | DevForest.nil => []
  | DevForest.node name path rm mnt children rest =>
    { name := name, path := path, rm := rm, mountpoint := mnt }
      :: (preorderNodes children ++ preorderNodes rest)

def nodeMatches (d : DevNode) : Bool := devMatches d.name d.rm d.mountpoint

/-- Specification-side search, following the spec's words: the device path
of the first node in pre-order satisfying the removable/partition/unmounted
conditions, or none. -/
def firstMatchPreorder (f : DevForest) : Option String :=
  ((preorderNodes f).find? nodeMatches).bind DevNode.path

/-- Every enumerated node carries a non-empty device path (as `lsblk -o
...,PATH` reports for real block devices). -/
def goodPaths (f : DevForest) : Bool :=
  (preorderNodes f).all fun d =>
    match d.path with
    | some s => !(s == "")
    | none => false

/-- Python truthiness of the optional device path. -/
def optTruthy : Option String → Bool
  | none => false
  | some s => !(s == "")

/-- Failure injection for one pass of the Watcher's handling sequence. -/
structure CycleEnv where
  mountFails : Bool
  importFails : Bool
  umountFails : Bool
deriving DecidableEq, Repr

/-- The body of the Watcher's `try` block: mkdir, mount (`check=True`),
run the importer (`check=True`), sync (no check), unmount (`check=True`).
Returns the events that happened before any failure, and whether the
sequence raised. -/
def handleSeq (d : String) (env : CycleEnv) : List WEv × Except String Unit :=
  if env.mountFails then
    ([WEv.mkdirMountpoint], Except.error "mount failed")
  else if env.importFails then
    ([WEv.mkdirMountpoint, WEv.mounted d, WEv.wlog ("Mounted " ++ d)],
     Except.error "usb_manager failed")
  else if env.umountFails then
    ([WEv.mkdirMountpoint, WEv.mounted d, WEv.wlog ("Mounted " ++ d), WEv.importRan,
      WEv.wlog "usb_manager.py completed", WEv.wsynced],
     Except.error "umount failed")
  else
    ([WEv.mkdirMountpoint, WEv.mounted d, WEv.wlog ("Mounted " ++ d), WEv.importRan,
      WEv.wlog "usb_manager.py completed", WEv.wsynced, WEv.unmounted d,
      WEv.wlog ("Unmounted " ++ d)],
     Except.ok ())

/-- One iteration of the Watcher's `while True` loop, given the device
found this cycle.  On a new truthy device: run the handling sequence;
`last_device := dev` happens only after a fully successful sequence, an
exception is caught and logged with `last_device` unchanged.  Then the
reset block: when the device is absent, clear `last_device` (logging the
removal if one was recorded). -/
def watcherCycle (last : Option String) (dev : Option String) (env : CycleEnv) :
    Option String × List WEv :=
  let step1 : Option String × List WEv :=
    match dev with
    | some d =>
      if (!(d == "")) = true ∧ some d ≠ last then
        let hs := handleSeq d env
        match hs.2 with
        | Except.ok _ =>
          (some d, WEv.wlog ("Detected new USB device: " ++ d) :: hs.1)
        | Except.error e =>
          (last, WEv.wlog ("Detected new USB device: " ++ d) :: hs.1
              ++ [WEv.wlog ("Error handling " ++ d ++ ": " ++ e)])
      else (last, [])
    | none => (last, [])
  if optTruthy dev then step1
  else
    match step1.1 with
    | some d0 => (none, step1.2 ++ [WEv.wlog ("USB device " ++ d0 ++ " removed")])
    | none => (none, step1.2)

/-- The all-success environment (every external command exits 0). -/
def okEnv : CycleEnv := { mountFails := false, importFails := false, umountFails := false }

/-- Fold the Watcher loop over a finite schedule of per-cycle enumeration
results, under `okEnv`; returns the final `last_device` and the trace. -/
def watcherRun (last : Option String) (devs : List (Option String)) :
    Option String × List WEv :=
  match devs with
  | [] => (last, [])
  | dev :: rest =>
    let c := watcherCycle last dev okEnv
    let r := watcherRun c.1 rest
    (r.1, c.2 ++ r.2)

def countMounts (evs : List WEv) : Nat :=
  evs.countP fun e => match e with | WEv.mounted _ => true | _ => false

def countImports (evs : List WEv) : Nat :=
  evs.countP fun e => match e with | WEv.importRan => true | _ => false

/-! ## Log sink models

Both `log` functions perform filesystem operations with no `try`/`except`
around them, so in the model each operation that can fail is a branch that
propagates `Except.error`. -/

/-- Environment and content of the log file. -/
structure LogEnv where
  mkdirFails : Bool
  openFails : Bool
  writeFails : Bool
  lines : List String
deriving DecidableEq, Repr

/-- `usb_manager.log`: `LOG_FILE.parent.mkdir(...)`, open for append,
write a `time.ctime()`-prefixed line — all unprotected. -/
def managerLog (env : LogEnv) (now msg : String) : Except String LogEnv :=
  if env.mkdirFails then Except.error "mkdir failed"
  else if env.openFails then Except.error "open failed"
  else if env.writeFails then Except.error "write failed"
  else Except.ok { env with lines := env.lines ++ [now ++ ": " ++ msg] }

/-- `watch_usb.log`: open for append and write a timestamped
`[watcher]`-tagged line — unprotected. -/
def watcherLog (env : LogEnv) (now msg : String) : Except String LogEnv :=
  if env.openFails then Except.error "open failed"
  else if env.writeFails then Except.error "write failed"
  else Except.ok { env with lines := env.lines ++ [now ++ " [watcher] " ++ msg] }

/-! ## Claim theorems: reboot handling and Import Job totality -/

/-- C10: for an existing `Reboot.txt` with fewer than two lines, the check
reports no trigger and `handle_reboot_file` leaves the file unchanged,
issues no reboot command, makes no announcement and emits no events. -/
theorem malformed_reboot_file_no_action (c : String) (rb : Bool)
    (h : (pySplitLines c).length < 2) :
    check_reboot_trigger (some c) = false
    ∧ handle_reboot_file (some c) rb = (some c, false, []) := by
  have hc : check_reboot_trigger (some c) = false := by
    simp [check_reboot_trigger, h]
  exact ⟨hc, by simp [handle_reboot_file, ensure_reboot_file, hc]⟩

theorem malformed_reboot_file_no_action_witness :
    (pySplitLines "### instructions, but no second line").length < 2
    ∧ check_reboot_trigger (some "### instructions, but no second line") = false
    ∧ handle_reboot_file (some "### instructions, but no second line") true
        = (some "### instructions, but no second line", false, []) :=
  ⟨by decide,
   (malformed_reboot_file_no_action "### instructions, but no second line" true (by decide)).1,
   (malformed_reboot_file_no_action "### instructions, but no second line" true (by decide)).2⟩

/-- C2: when `Reboot.txt`'s second line strips to `Reboot`, one
`process_usb` invocation returns normally with the file rewritten to the
placeholder state; the rewrite event (index 1) precedes the reboot-command
attempt (index 6); the result no longer triggers; and a failing reboot
command only adds a log line. -/
theorem reboot_trigger_selfclearing (st : SysState) (env : JobEnv) (c l2 : String)
    (hfile : st.rebootFile = some c)
    (hline : (pySplitLines c).get? 1 = some l2)
    (htok : pyStrip l2 = "Reboot") :
    ∃ st2 evs, process_usb st env = Except.ok (st2, evs)
      ∧ st2.rebootFile = some REBOOT_FILE_DEFAULT
      ∧ (pySplitLines REBOOT_FILE_DEFAULT).getD 1 "" = "– Reboot"
      ∧ check_reboot_trigger st2.rebootFile = false
      ∧ evs.get? 1 = some Ev.wroteRebootFile
      ∧ evs.get? 6 = some Ev.rebootCmd
      ∧ (env.rebootFails = true → Ev.logged "Reboot error" ∈ evs) := by
  have htrig : check_reboot_trigger (some c) = true := by
    obtain ⟨hlt, _⟩ := List.get?_eq_some.mp hline
    have hgd : (pySplitLines c)[1]?.getD "" = l2 := by
      rw [← List.get?_eq_getElem?, hline]
      rfl
    have hnlt : ¬ (pySplitLines c).length < 2 := by omega
    simp [check_reboot_trigger, hnlt, hgd, htok]
  have hh : handle_reboot_file (some c) env.rebootFails
      = (some REBOOT_FILE_DEFAULT, true,
        [Ev.logged "Reboot trigger detected via Reboot.txt", Ev.wroteRebootFile,
         Ev.logged "Restored Reboot.txt to default format", Ev.spoke "Rebooting now.",
         Ev.synced, Ev.logged "Rebooting now…", Ev.rebootCmd]
          ++ (if env.rebootFails then [Ev.logged "Reboot error"] else [])) := by
    simp [handle_reboot_file, ensure_reboot_file, restore_reboot_file, htrig]
  refine ⟨{ st with rebootFile := some REBOOT_FILE_DEFAULT },
    [Ev.logged "Reboot trigger detected via Reboot.txt", Ev.wroteRebootFile,
     Ev.logged "Restored Reboot.txt to default format", Ev.spoke "Rebooting now.",
     Ev.synced, Ev.logged "Rebooting now…", Ev.rebootCmd]
      ++ (if env.rebootFails then [Ev.logged "Reboot error"] else []),
    ?_, rfl, by decide, ?_, ?_, ?_, ?_⟩
  · simp [process_usb, hfile, hh]
  · show check_reboot_trigger (some REBOOT_FILE_DEFAULT) = false
    decide
  · cases hrb : env.rebootFails <;> simp [hrb]
  · cases hrb : env.rebootFails <;> simp [hrb]
  · intro hrb
    simp [hrb]

/-- A concrete volume state whose `Reboot.txt` is in triggered state. -/
def trigState : SysState :=
  { usbMounted := true, rebootFile := some "### instructions ###\n Reboot \n",
    addDir := none, libraryFile := none, audioDir := none }

theorem reboot_trigger_selfclearing_witness :
    trigState.rebootFile = some "### instructions ###\n Reboot \n"
    ∧ (pySplitLines "### instructions ###\n Reboot \n").get? 1 = some " Reboot "
    ∧ pyStrip " Reboot " = "Reboot"
    ∧ (∃ st2 evs, process_usb trigState { rebootFails := true, libraryWriteFails := false }
          = Except.ok (st2, evs)
        ∧ st2.rebootFile = some REBOOT_FILE_DEFAULT
        ∧ (pySplitLines REBOOT_FILE_DEFAULT).getD 1 "" = "– Reboot"
        ∧ check_reboot_trigger st2.rebootFile = false
        ∧ evs.get? 1 = some Ev.wroteRebootFile
        ∧ evs.get? 6 = some Ev.rebootCmd
        ∧ (({ rebootFails := true, libraryWriteFails := false } : JobEnv).rebootFails = true
            → Ev.logged "Reboot error" ∈ evs)) :=
  ⟨rfl, by decide, by decide,
   reboot_trigger_selfclearing trigState { rebootFails := true, libraryWriteFails := false }
     "### instructions ###\n Reboot \n" " Reboot " rfl (by decide) (by decide)⟩

/-- Reboot handling produces only log, speech, sync, reboot-command and
reboot-file-write events — never a copy, unlink or library write. -/
def isRebootEv : Ev → Bool
  | Ev.logged _ => true
  | Ev.spoke _ => true
  | Ev.synced => true
  | Ev.rebootCmd => true
  | Ev.wroteRebootFile => true
  | _ => false

theorem handle_reboot_events (f : Option String) (rb : Bool) :
    ∀ e ∈ (handle_reboot_file f rb).2.2, isRebootEv e = true := by
  intro e he
  cases f with
  | none =>
    have hc : check_reboot_trigger (some REBOOT_FILE_DEFAULT) = false := by decide
    have hall : ((handle_reboot_file none rb).2.2).all isRebootEv = true := by
      simp [handle_reboot_file, ensure_reboot_file, hc, isRebootEv]
    exact List.all_eq_true.mp hall e he
  | some c =>
    by_cases hc : check_reboot_trigger (some c) = true
    · have hall : ((handle_reboot_file (some c) rb).2.2).all isRebootEv = true := by
        cases rb <;>
          simp [handle_reboot_file, ensure_reboot_file, restore_reboot_file, hc, isRebootEv]
      exact List.all_eq_true.mp hall e he
    · rw [Bool.not_eq_true] at hc
      simp [handle_reboot_file, ensure_reboot_file, hc] at he

/-- C8: when the reboot trigger fires, `process_usb` returns immediately
after reboot handling: no copy, no unlink, no library write happens, and
the content store, `library.txt` and `Add/` are left unchanged. -/
theorem reboot_short_circuit_frame (st : SysState) (env : JobEnv)
    (htrig : (handle_reboot_file st.rebootFile env.rebootFails).2.1 = true) :
    ∃ st2 evs, process_usb st env = Except.ok (st2, evs)
      ∧ st2.audioDir = st.audioDir
      ∧ st2.libraryFile = st.libraryFile
      ∧ st2.addDir = st.addDir
      ∧ (∀ n, Ev.copied n ∉ evs)
      ∧ (∀ n, Ev.removedFile n ∉ evs)
      ∧ Ev.libraryWritten ∉ evs := by
  refine ⟨{ st with rebootFile := (handle_reboot_file st.rebootFile env.rebootFails).1 },
    (handle_reboot_file st.rebootFile env.rebootFails).2.2, ?_, rfl, rfl, rfl, ?_, ?_, ?_⟩
  · simp [process_usb, htrig]
  · intro n hmem
    simpa [isRebootEv] using handle_reboot_events st.rebootFile env.rebootFails _ hmem
  · intro n hmem
    simpa [isRebootEv] using handle_reboot_events st.rebootFile env.rebootFails _ hmem
  · intro hmem
    simpa [isRebootEv] using handle_reboot_events st.rebootFile env.rebootFails _ hmem

theorem reboot_short_circuit_frame_witness :
    (handle_reboot_file trigState.rebootFile
        ({ rebootFails := false, libraryWriteFails := false } : JobEnv).rebootFails).2.1 = true
    ∧ (∃ st2 evs, process_usb trigState { rebootFails := false, libraryWriteFails := false }
          = Except.ok (st2, evs)
        ∧ st2.audioDir = trigState.audioDir
        ∧ st2.libraryFile = trigState.libraryFile
        ∧ st2.addDir = trigState.addDir
        ∧ (∀ n, Ev.copied n ∉ evs)
        ∧ (∀ n, Ev.removedFile n ∉ evs)
        ∧ Ev.libraryWritten ∉ evs) :=
  ⟨by decide,
   reboot_short_circuit_frame trigState { rebootFails := false, libraryWriteFails := false }
     (by decide)⟩

/-- C1 counterexample input: a mounted volume whose `Add/` holds one
regular file whose copy fails (e.g. it is unreadable). -/
def unreadableAddState : SysState :=
  { usbMounted := true, rebootFile := some REBOOT_FILE_DEFAULT,
    addDir := some [{ name := "bad.mp3", isFile := true, copyFails := true }],
    libraryFile := none, audioDir := some [] }

/-- C1 counterexample: `safe_copy` has no `try`/`except` and neither does
the additions loop of `process_usb`, so a single unreadable file in `Add/`
makes the whole Import Job raise to its caller instead of returning
normally. -/
theorem process_usb_can_raise :
    process_usb unreadableAddState { rebootFails := false, libraryWriteFails := false }
      = Except.error "copy failed: bad.mp3" := by rfl

/-- No entry of the (optional) store has a failing unlink. -/
def unlinkOkO (store : Option (List StoreEntry)) : Prop :=
  ∀ s, store = some s → ∀ e ∈ s, e.unlinkFails = false

theorem storePut_unlinkOk (es : List StoreEntry) (n : String)
    (h : ∀ e ∈ es, e.unlinkFails = false) :
    ∀ e ∈ storePut es n, e.unlinkFails = false := by
  intro e he
  unfold storePut at he
  by_cases hany : es.any (fun e2 => e2.name == n) = true
  · rw [if_pos hany] at he
    rcases List.mem_map.mp he with ⟨e0, he0, heq⟩
    by_cases hn : (e0.name == n) = true
    · rw [if_pos hn] at heq
      rw [← heq]
      exact h e0 he0
    · rw [if_neg hn] at heq
      rw [← heq]
      exact h e0 he0
  · rw [if_neg hany] at he
    rcases List.mem_append.mp he with h1 | h1
    · exact h e h1
    · rcases List.mem_singleton.mp h1 with rfl
      rfl

theorem addLoop_ok (entries : List AddEntry) :
    ∀ (store : Option (List StoreEntry)) (added : Bool),
    (∀ e ∈ entries, e.copyFails = false) → unlinkOkO store →
    ∃ store2 added2 evs, addLoop entries store added = Except.ok (store2, added2, evs)
      ∧ unlinkOkO store2 := by
  induction entries with
  | nil =>
    intro store added _ hs
    exact ⟨store, added, [], rfl, hs⟩
  | cons entry rest ih =>
    intro store added hc hs
    by_cases hfile : entry.isFile = true ∧ pyStartsWith entry.name "." = false
    · have hcf : entry.copyFails = false := hc entry (List.mem_cons_self entry rest)
      have hsc : safe_copy entry store
          = Except.ok (storePut (store.getD []) entry.name,
            [Ev.copied entry.name, Ev.logged ("Copied: " ++ entry.name)]) := by
        simp [safe_copy, hcf]
      have hput : unlinkOkO (some (storePut (store.getD []) entry.name)) := by
        intro s hseq
        cases hseq
        apply storePut_unlinkOk
        cases hstore : store with
        | none => intro e he; simp at he
        | some s0 => exact hs s0 hstore
      obtain ⟨store2, added2, evs2, heq, hok⟩ :=
        ih (some (storePut (store.getD []) entry.name)) true
          (fun e he => hc e (List.mem_cons_of_mem entry he)) hput
      refine ⟨store2, added2,
        [Ev.copied entry.name, Ev.logged ("Copied: " ++ entry.name)] ++ evs2, ?_, hok⟩
      simp only [addLoop]
      rw [if_pos hfile]
      simp [hsc, heq]
    · obtain ⟨store2, added2, evs2, heq, hok⟩ :=
        ih store added (fun e he => hc e (List.mem_cons_of_mem entry he)) hs
      refine ⟨store2, added2, evs2, ?_, hok⟩
      simp only [addLoop]
      rw [if_neg hfile, heq]

theorem delLoop_ok (names : List String) :
    ∀ (store : Option (List StoreEntry)) (deleted : Bool), unlinkOkO store →
    ∃ store2 del2 evs, delLoop names store deleted = Except.ok (store2, del2, evs)
      ∧ unlinkOkO store2 := by
  induction names with
  | nil =>
    intro store deleted hs
    exact ⟨store, deleted, [], rfl, hs⟩
  | cons n rest ih =>
    intro store deleted hs
    cases hstore : store with
    | none =>
      obtain ⟨store2, del2, evs2, heq, hok⟩ := ih none deleted (by intro s h; cases h)
      refine ⟨store2, del2, evs2, ?_, hok⟩
      simp only [delLoop, safe_delete]
      simp [heq]
    | some es =>
      cases hfind : es.find? (fun e => e.name == n) with
      | none =>
        obtain ⟨store2, del2, evs2, heq, hok⟩ := ih (some es) deleted
          (by intro s h; cases h; exact hs es hstore)
        refine ⟨store2, del2, evs2, ?_, hok⟩
        simp only [delLoop, safe_delete]
        simp [hfind, heq]
      | some e0 =>
        have he0 : e0.unlinkFails = false :=
          hs es hstore e0 (List.mem_of_find?_eq_some hfind)
        have hfilterOk : unlinkOkO (some (es.filter (fun e2 => e2.name ≠ n))) := by
          intro s h
          cases h
          intro e he
          exact hs es hstore e (List.mem_filter.mp he).1
        obtain ⟨store2, del2, evs2, heq, hok⟩ := ih
          (some (es.filter (fun e2 => e2.name ≠ n))) true hfilterOk
        refine ⟨store2, del2,
          [Ev.removedFile n, Ev.logged ("Deleted: " ++ n)] ++ evs2, ?_, hok⟩
        simp only [delLoop, safe_delete]
        simp only [ne_eq, decide_not] at heq
        simp [hfind, he0, heq]

theorem addStep_ok (entries? : Option (List AddEntry)) (store : Option (List StoreEntry))
    (hc : ∀ a, entries? = some a → ∀ e ∈ a, e.copyFails = false) (hs : unlinkOkO store) :
    ∃ store1 added evs1, addStep entries? store = Except.ok (store1, added, evs1)
      ∧ unlinkOkO store1 := by
  cases had : entries? with
  | none => exact ⟨store, false, [], rfl, hs⟩
  | some entries =>
    obtain ⟨s2, a2, e2, heq, hok⟩ := addLoop_ok entries store false (hc entries had) hs
    exact ⟨s2, a2, e2, by simp only [addStep]; exact heq, hok⟩

theorem delStep_ok (lib : Option (List String)) (store : Option (List StoreEntry))
    (hs : unlinkOkO store) :
    ∃ store2 del2 evs2, delStep lib store = Except.ok (store2, del2, evs2)
      ∧ unlinkOkO store2 := by
  by_cases hE : (parse_deletion_from_library lib).isEmpty = true
  · exact ⟨store, false, [], by simp only [delStep]; rw [if_pos hE], hs⟩
  · obtain ⟨s3, d3, e3, heq, hok⟩ := delLoop_ok (parse_deletion_from_library lib) store false hs
    exact ⟨s3, d3, e3, by simp only [delStep]; rw [if_neg hE]; exact heq, hok⟩

/-- C1 (amended): provided every file copy of the additions step and every
unlink of the deletions step succeeds, `process_usb` returns normally for
every volume state — failures inside reboot handling, library parsing and
the inventory rewrite are caught, logged and skipped, and the later steps
still run; but (counterexample `process_usb_can_raise`) a failing copy or
unlink propagates an exception to the caller. -/
theorem process_usb_ok_of_copy_unlink_ok (st : SysState) (env : JobEnv)
    (hcopy : ∀ a, st.addDir = some a → ∀ e ∈ a, e.copyFails = false)
    (hdel : unlinkOkO st.audioDir) :
    (process_usb st env).isOk = true := by
  by_cases htrig : (handle_reboot_file st.rebootFile env.rebootFails).2.1 = true
  · simp [process_usb, htrig, Except.isOk, Except.toBool]
  · rw [Bool.not_eq_true] at htrig
    obtain ⟨store1, added, evs1, haddEq, hok1⟩ := addStep_ok st.addDir st.audioDir hcopy hdel
    obtain ⟨store2, del2, evs2, hdelEq, _⟩ := delStep_ok st.libraryFile store1 hok1
    simp [process_usb, htrig, haddEq, hdelEq, Except.isOk, Except.toBool]

/-- A volume state exercising additions, deletions and the inventory
rewrite, paired below with an injected library-write failure. -/
def busyState : SysState :=
  { usbMounted := true, rebootFile := none,
    addDir := some [{ name := "new.mp3", isFile := true, copyFails := false },
                    { name := ".hidden", isFile := true, copyFails := false }],
    libraryFile := some ["Inventory:", "gone.mp3", "", "Deletion:", "gone.mp3", "absent.mp3"],
    audioDir := some [{ name := "gone.mp3", isFile := true, unlinkFails := false }] }

theorem process_usb_ok_witness :
    (∀ a, busyState.addDir = some a → ∀ e ∈ a, e.copyFails = false)
    ∧ unlinkOkO busyState.audioDir
    ∧ (process_usb busyState { rebootFails := false, libraryWriteFails := true }).isOk = true :=
  ⟨fun a ha => by injection ha with h; subst h; decide,
   fun s hs => by injection hs with h; subst h; decide,
   process_usb_ok_of_copy_unlink_ok busyState { rebootFails := false, libraryWriteFails := true }
     (fun a ha => by injection ha with h; subst h; decide)
     (fun s hs => by injection hs with h; subst h; decide)⟩

/-- C5: every Import Job run that reaches the inventory rewrite with the
volume mounted (no reboot short-circuit, no exception, and the rewrite
itself not failing) leaves `library.txt` as an `Inventory:` header, the
content store's current non-hidden regular file names sorted in the
case-sensitive lexical order, a blank separator line, and a bare
`Deletion:` header with no entries after it. -/
theorem library_rewrite_spec (st : SysState) (env : JobEnv) (st2 : SysState) (evs : List Ev)
    (hmounted : st.usbMounted = true) (hwf : env.libraryWriteFails = false)
    (htrig : (handle_reboot_file st.rebootFile env.rebootFails).2.1 = false)
    (hrun : process_usb st env = Except.ok (st2, evs)) :
    st2.libraryFile = some (libraryLines st2.audioDir)
    ∧ libraryLines st2.audioDir
        = "Inventory:" :: (List.insertionSort strLeP (storeNames st2.audioDir)
            ++ ["", "Deletion:"])
    ∧ List.Sorted strLeP (List.insertionSort strLeP (storeNames st2.audioDir))
    ∧ (List.insertionSort strLeP (storeNames st2.audioDir)).Perm (storeNames st2.audioDir) := by
  have hmain : st2.libraryFile = some (libraryLines st2.audioDir) := by
    simp only [process_usb, htrig] at hrun
    simp at hrun
    rcases haddE : addStep st.addDir st.audioDir with msg | ⟨store1, added, evs1⟩
    · rw [haddE] at hrun
      simp at hrun
    · rw [haddE] at hrun
      simp at hrun
      rcases hdelE : delStep st.libraryFile store1 with msg | ⟨store2, del2, evs2⟩
      · rw [hdelE] at hrun
        simp at hrun
      · rw [hdelE] at hrun
        simp at hrun
        have hwr := hrun.1
        rw [← hwr]
        simp [write_library_to_usb, hmounted, hwf]
  refine ⟨hmain, rfl, ?_, ?_⟩
  · exact List.sorted_insertionSort strLeP (storeNames st2.audioDir)
  · exact List.perm_insertionSort strLeP (storeNames st2.audioDir)

/-- A mounted volume state with no pending protocol actions over a content
store holding two regular files, one hidden file and one directory. -/
def storeState : SysState :=
  { usbMounted := true, rebootFile := some REBOOT_FILE_DEFAULT,
    addDir := none, libraryFile := none,
    audioDir := some [{ name := "b.mp3", isFile := true, unlinkFails := false },
                      { name := "a.mp3", isFile := true, unlinkFails := false },
                      { name := ".cache", isFile := true, unlinkFails := false },
                      { name := "folder", isFile := false, unlinkFails := false }] }

/-- `storeState` after one Import Job run. -/
def storeStateAfter : SysState :=
  { storeState with libraryFile := some ["Inventory:", "a.mp3", "b.mp3", "", "Deletion:"] }

theorem library_rewrite_spec_witness :
    storeState.usbMounted = true
    ∧ (handle_reboot_file storeState.rebootFile false).2.1 = false
    ∧ process_usb storeState { rebootFails := false, libraryWriteFails := false }
        = Except.ok (storeStateAfter, [Ev.libraryWritten, Ev.logged "Updated library.txt"])
    ∧ (storeStateAfter.libraryFile = some (libraryLines storeStateAfter.audioDir)
       ∧ libraryLines storeStateAfter.audioDir
           = "Inventory:" :: (List.insertionSort strLeP (storeNames storeStateAfter.audioDir)
               ++ ["", "Deletion:"])
       ∧ List.Sorted strLeP (List.insertionSort strLeP (storeNames storeStateAfter.audioDir))
       ∧ (List.insertionSort strLeP (storeNames storeStateAfter.audioDir)).Perm
           (storeNames storeStateAfter.audioDir)) :=
  ⟨rfl, by decide, by rfl,
   library_rewrite_spec storeState { rebootFails := false, libraryWriteFails := false }
     storeStateAfter [Ev.libraryWritten, Ev.logged "Updated library.txt"]
     rfl rfl (by decide) (by rfl)⟩

/-! ## Claim theorems: the Watcher loop -/

/-- The trace of one fully successful handling pass for device `d`. -/
def handleTraceOk (d : String) : List WEv :=
  [WEv.wlog ("Detected new USB device: " ++ d), WEv.mkdirMountpoint,
   WEv.mounted d, WEv.wlog ("Mounted " ++ d), WEv.importRan,
   WEv.wlog "usb_manager.py completed", WEv.wsynced, WEv.unmounted d,
   WEv.wlog ("Unmounted " ++ d)]

theorem watcherCycle_same (d : String) (hd : d ≠ "") (env : CycleEnv) :
    watcherCycle (some d) (some d) env = (some d, []) := by
  have hb : (d == "") = false := by simp [hd]
  simp [watcherCycle, optTruthy, hb]

theorem watcherCycle_new (d : String) (hd : d ≠ "") (last : Option String)
    (hne : some d ≠ last) :
    watcherCycle last (some d) okEnv = (some d, handleTraceOk d) := by
  have hb : (d == "") = false := by simp [hd]
  simp [watcherCycle, optTruthy, hb, hne, handleSeq, okEnv, handleTraceOk]

theorem watcherCycle_absent (last : Option String) (env : CycleEnv) :
    watcherCycle last none env
      = (none, match last with
               | some d0 => [WEv.wlog ("USB device " ++ d0 ++ " removed")]
               | none => []) := by
  cases last <;> simp [watcherCycle, optTruthy]

theorem watcherRun_steady (d : String) (hd : d ≠ "") (k : Nat) :
    watcherRun (some d) (List.replicate k (some d)) = (some d, []) := by
  induction k with
  | zero => rfl
  | succ n ih =>
    rw [List.replicate_succ]
    simp [watcherRun, watcherCycle_same d hd okEnv, ih]

theorem watcherRun_insertion (d : String) (hd : d ≠ "") (m : Nat) (hm : 1 ≤ m) :
    watcherRun none (List.replicate m (some d)) = (some d, handleTraceOk d) := by
  obtain ⟨k, rfl⟩ : ∃ k, m = k + 1 := ⟨m - 1, by omega⟩
  rw [List.replicate_succ]
  simp [watcherRun, watcherCycle_new d hd none (by simp), watcherRun_steady d hd k]

theorem watcherRun_append (last : Option String) (xs ys : List (Option String)) :
    watcherRun last (xs ++ ys)
      = ((watcherRun (watcherRun last xs).1 ys).1,
         (watcherRun last xs).2 ++ (watcherRun (watcherRun last xs).1 ys).2) := by
  induction xs generalizing last with
  | nil => simp [watcherRun]
  | cons x xs ih => simp [watcherRun, ih]

theorem countMounts_handleTraceOk (d : String) : countMounts (handleTraceOk d) = 1 := rfl

theorem countImports_handleTraceOk (d : String) : countImports (handleTraceOk d) = 1 := rfl

/-- C3: over consecutive poll cycles in which exactly the one removable,
unmounted partition `d` is reported, the Watcher mounts and imports `d`
exactly once and records it as handled; re-polling the still-present
device does nothing further; one cycle with the device absent clears the
record; and a re-insertion of the same path is handled again (two mounts
and two imports in total). -/
theorem watcher_once_per_insertion (d : String) (hd : d ≠ "") (m n : Nat)
    (hm : 1 ≤ m) (hn : 1 ≤ n) :
    countMounts (watcherRun none (List.replicate m (some d))).2 = 1
    ∧ countImports (watcherRun none (List.replicate m (some d))).2 = 1
    ∧ (watcherRun none (List.replicate m (some d))).1 = some d
    ∧ (watcherRun none (List.replicate m (some d) ++ [none])).1 = none
    ∧ countMounts (watcherRun none
        (List.replicate m (some d) ++ [none] ++ List.replicate n (some d))).2 = 2
    ∧ countImports (watcherRun none
        (List.replicate m (some d) ++ [none] ++ List.replicate n (some d))).2 = 2 := by
  have h1 := watcherRun_insertion d hd m hm
  have habs : watcherRun (some d) [none] = (none, [WEv.wlog ("USB device " ++ d ++ " removed")]) := by
    simp [watcherRun, watcherCycle_absent]
  have h2 : watcherRun none (List.replicate m (some d) ++ [none])
      = (none, handleTraceOk d ++ [WEv.wlog ("USB device " ++ d ++ " removed")]) := by
    rw [watcherRun_append, h1]
    simp [habs]
  have h3 : watcherRun none (List.replicate m (some d) ++ [none] ++ List.replicate n (some d))
      = (some d, (handleTraceOk d ++ [WEv.wlog ("USB device " ++ d ++ " removed")])
          ++ handleTraceOk d) := by
    rw [watcherRun_append, h2]
    simp [watcherRun_insertion d hd n hn]
  refine ⟨?_, ?_, ?_, ?_, ?_, ?_⟩
  · rw [h1]; exact countMounts_handleTraceOk d
  · rw [h1]; exact countImports_handleTraceOk d
  · rw [h1]
  · rw [h2]
  · rw [h3]
    simp [countMounts, List.countP_append]
    rfl
  · rw [h3]
    simp [countImports, List.countP_append]
    rfl

theorem watcher_once_per_insertion_witness :
    (("/dev/sda1" : String) ≠ "" ∧ 1 ≤ 2)
    ∧ (countMounts (watcherRun none (List.replicate 2 (some "/dev/sda1"))).2 = 1
       ∧ countImports (watcherRun none (List.replicate 2 (some "/dev/sda1"))).2 = 1
       ∧ (watcherRun none (List.replicate 2 (some "/dev/sda1"))).1 = some "/dev/sda1"
       ∧ (watcherRun none (List.replicate 2 (some "/dev/sda1") ++ [none])).1 = none
       ∧ countMounts (watcherRun none
           (List.replicate 2 (some "/dev/sda1") ++ [none]
             ++ List.replicate 2 (some "/dev/sda1"))).2 = 2
       ∧ countImports (watcherRun none
           (List.replicate 2 (some "/dev/sda1") ++ [none]
             ++ List.replicate 2 (some "/dev/sda1"))).2 = 2) :=
  ⟨⟨by decide, by decide⟩,
   watcher_once_per_insertion "/dev/sda1" (by decide) 2 2 (by decide) (by decide)⟩

/-- C6 counterexample: with a fresh device and a failing unmount step, the
cycle does NOT record the device as handled — `last_device` is set only
after a successful unmount, so it stays `none`, contradicting the claim
that the device "stays flagged as handled" when unmount fails. -/
theorem unmount_fail_not_flagged :
    (watcherCycle none (some "/dev/sda1")
        { mountFails := false, importFails := false, umountFails := true }).1
      ≠ some "/dev/sda1" := by decide

/-- C6 (amended): every failure in the mount/import/flush/unmount sequence
is caught: the cycle returns with the sequence aborted and the recorded
last-handled path unchanged — on an unmount failure the device is NOT
flagged as handled, while it remains mounted (a `mounted` event with no
matching `unmounted` event); the next poll simply retries. -/
theorem watcher_cycle_failure_aborts (last : Option String) (d : String) (env : CycleEnv)
    (hd : d ≠ "") (hnew : some d ≠ last) (e : String)
    (hfail : (handleSeq d env).2 = Except.error e) :
    (watcherCycle last (some d) env).1 = last
    ∧ (watcherCycle last (some d) env).2
        = WEv.wlog ("Detected new USB device: " ++ d) :: ((handleSeq d env).1
            ++ [WEv.wlog ("Error handling " ++ d ++ ": " ++ e)])
    ∧ (env.mountFails = false → env.importFails = false → env.umountFails = true →
        WEv.mounted d ∈ (watcherCycle last (some d) env).2
        ∧ WEv.unmounted d ∉ (watcherCycle last (some d) env).2) := by
  have hb : (d == "") = false := by simp [hd]
  have hcyc : watcherCycle last (some d) env
      = (last, WEv.wlog ("Detected new USB device: " ++ d) :: ((handleSeq d env).1
          ++ [WEv.wlog ("Error handling " ++ d ++ ": " ++ e)])) := by
    simp [watcherCycle, optTruthy, hb, hnew, hfail]
  refine ⟨by rw [hcyc], by rw [hcyc], ?_⟩
  intro hm hi hu
  have hseq : handleSeq d env
      = ([WEv.mkdirMountpoint, WEv.mounted d, WEv.wlog ("Mounted " ++ d), WEv.importRan,
          WEv.wlog "usb_manager.py completed", WEv.wsynced],
         Except.error "umount failed") := by
    simp [handleSeq, hm, hi, hu]
  rw [hcyc, hseq]
  constructor
  · simp
  · simp

theorem watcher_cycle_failure_aborts_witness :
    (("/dev/sda1" : String) ≠ ""
     ∧ some "/dev/sda1" ≠ (none : Option String)
     ∧ (handleSeq "/dev/sda1"
          { mountFails := false, importFails := false, umountFails := true }).2
         = Except.error "umount failed")
    ∧ ((watcherCycle none (some "/dev/sda1")
          { mountFails := false, importFails := false, umountFails := true }).1 = none
       ∧ (watcherCycle none (some "/dev/sda1")
            { mountFails := false, importFails := false, umountFails := true }).2
           = WEv.wlog ("Detected new USB device: " ++ "/dev/sda1")
               :: ((handleSeq "/dev/sda1"
                     { mountFails := false, importFails := false, umountFails := true }).1
                 ++ [WEv.wlog ("Error handling " ++ "/dev/sda1" ++ ": " ++ "umount failed")])
       ∧ (({ mountFails := false, importFails := false, umountFails := true } : CycleEnv).mountFails = false
          → ({ mountFails := false, importFails := false, umountFails := true } : CycleEnv).importFails = false
          → ({ mountFails := false, importFails := false, umountFails := true } : CycleEnv).umountFails = true
          → WEv.mounted "/dev/sda1" ∈ (watcherCycle none (some "/dev/sda1")
              { mountFails := false, importFails := false, umountFails := true }).2
            ∧ WEv.unmounted "/dev/sda1" ∉ (watcherCycle none (some "/dev/sda1")
                { mountFails := false, importFails := false, umountFails := true }).2)) :=
  ⟨⟨by decide, by decide, by rfl⟩,
   watcher_cycle_failure_aborts none "/dev/sda1"
     { mountFails := false, importFails := false, umountFails := true }
     (by decide) (by decide) "umount failed" (by rfl)⟩

theorem walk_eq_firstMatch (f : DevForest) (h : goodPaths f = true) :
    walk f = firstMatchPreorder f := by
  induction f with
  | nil => rfl
  | node name path rm mnt children rest ihc ihr =>
    rw [goodPaths, preorderNodes, List.all_cons, List.all_append,
      Bool.and_eq_true, Bool.and_eq_true] at h
    obtain ⟨hhead, hch, hrest⟩ := h
    by_cases hm : devMatches name rm mnt = true
    · have hfind : (preorderNodes (DevForest.node name path rm mnt children rest)).find?
          nodeMatches = some { name := name, path := path, rm := rm, mountpoint := mnt } := by
        rw [preorderNodes, List.find?_cons]
        simp [nodeMatches, hm]
      rw [firstMatchPreorder, hfind]
      simp only [walk]
      rw [if_pos hm]
      rfl
    · have hfindc : (preorderNodes (DevForest.node name path rm mnt children rest)).find?
          nodeMatches
          = ((preorderNodes children).find? nodeMatches).or
              ((preorderNodes rest).find? nodeMatches) := by
        rw [preorderNodes, List.find?_cons]
        simp [nodeMatches, hm, List.find?_append]
      rw [firstMatchPreorder, hfindc]
      simp only [walk]
      rw [if_neg hm]
      cases children with
      | nil =>
        simp only [preorderNodes, List.find?_nil, Option.none_or]
        exact ihr (by rw [goodPaths]; exact hrest)
      | node n2 p2 r2 m2 c2 rs2 =>
        have hwc : walk (DevForest.node n2 p2 r2 m2 c2 rs2)
            = firstMatchPreorder (DevForest.node n2 p2 r2 m2 c2 rs2) :=
          ihc (by rw [goodPaths]; exact hch)
        rcases hfind2 : (preorderNodes (DevForest.node n2 p2 r2 m2 c2 rs2)).find? nodeMatches
            with _ | dn
        · have hwcn : walk (DevForest.node n2 p2 r2 m2 c2 rs2) = none := by
            rw [hwc, firstMatchPreorder, hfind2]
            rfl
          rw [hwcn, Option.none_or]
          exact ihr (by rw [goodPaths]; exact hrest)
        · have hdnmem : dn ∈ preorderNodes (DevForest.node n2 p2 r2 m2 c2 rs2) :=
            List.mem_of_find?_eq_some hfind2
          have hp := List.all_eq_true.mp hch dn hdnmem
          cases hpath : dn.path with
          | none =>
            rw [hpath] at hp
            simp at hp
          | some s =>
            rw [hpath] at hp
            have hs : (s == "") = false := by
              have hp2 : (!(s == "")) = true := by simpa using hp
              simpa using hp2
            have hwcs : walk (DevForest.node n2 p2 r2 m2 c2 rs2) = some s := by
              rw [hwc, firstMatchPreorder, hfind2, Option.some_bind, hpath]
            rw [hwcs]
            simp [Option.or, hs, hpath]

/-- C7: over any block-device tree whose nodes carry the device paths
`lsblk` reports, the partition search returns the device path of the first
node in pre-order satisfying removable ∧ digit-suffixed name ∧ empty or
absent mountpoint; it returns none exactly when no node satisfies them;
and an erroring enumeration tool is caught, logged and treated as no
device this cycle. -/
theorem find_usb_partition_preorder (f : DevForest) (hgood : goodPaths f = true) :
    (find_usb_partition (Except.ok f)).1 = firstMatchPreorder f
    ∧ (firstMatchPreorder f = none ↔ ∀ d ∈ preorderNodes f, nodeMatches d = false)
    ∧ (∀ e : String, (find_usb_partition (Except.error e)).1 = none
        ∧ (find_usb_partition (Except.error e)).2 = [WEv.wlog ("lsblk failed: " ++ e)]) := by
  refine ⟨walk_eq_firstMatch f hgood, ⟨?_, ?_⟩, fun e => ⟨rfl, rfl⟩⟩
  · intro h0 d hmem
    rcases hfind : (preorderNodes f).find? nodeMatches with _ | dn
    · rw [List.find?_eq_none] at hfind
      have := hfind d hmem
      cases hnm : nodeMatches d
      · rfl
      · exact absurd hnm this
    · have hdnmem := List.mem_of_find?_eq_some hfind
      have hp := List.all_eq_true.mp hgood dn hdnmem
      rw [firstMatchPreorder, hfind, Option.some_bind] at h0
      rw [h0] at hp
      simp at hp
  · intro hall
    rw [firstMatchPreorder]
    rcases hfind : (preorderNodes f).find? nodeMatches with _ | dn
    · rfl
    · have h1 := hall dn (List.mem_of_find?_eq_some hfind)
      have h2 := List.find?_some hfind
      rw [h1] at h2
      exact absurd h2 (by simp)

/-- A two-level device tree: a removable whole disk `sda` carrying one
removable unmounted partition `sda1`; the disk itself does not match (its
name does not end in a digit), the partition does. -/
def sampleForest : DevForest :=
  DevForest.node (some "sda") (some "/dev/sda") (some 1) none
    (DevForest.node (some "sda1") (some "/dev/sda1") (some 1) none DevForest.nil DevForest.nil)
    DevForest.nil

theorem find_usb_partition_preorder_witness :
    goodPaths sampleForest = true
    ∧ ((find_usb_partition (Except.ok sampleForest)).1 = firstMatchPreorder sampleForest
       ∧ (firstMatchPreorder sampleForest = none
            ↔ ∀ d ∈ preorderNodes sampleForest, nodeMatches d = false)
       ∧ (∀ e : String, (find_usb_partition (Except.error e)).1 = none
           ∧ (find_usb_partition (Except.error e)).2 = [WEv.wlog ("lsblk failed: " ++ e)])) :=
  ⟨by decide, find_usb_partition_preorder sampleForest (by decide)⟩

/-- C9 counterexample: a log-file environment in which opening the file
for append fails (e.g. an unwritable directory) makes both log sinks
propagate the exception instead of returning normally. -/
theorem log_can_raise :
    managerLog { mkdirFails := false, openFails := true, writeFails := false, lines := [] }
        "Mon Jan 1 10:00:00 2026" "hello" = Except.error "open failed"
    ∧ watcherLog { mkdirFails := false, openFails := true, writeFails := false, lines := [] }
        "2026-01-01 10:00:00" "hello" = Except.error "open failed" :=
  ⟨rfl, rfl⟩

/-- C9 (amended): when the log file's directory and file are writable,
each log sink appends exactly one timestamped line and returns normally;
but a failing mkdir, open or append propagates the exception to the
caller (counterexample `log_can_raise`), so a log failure at the watcher's
unprotected call sites can terminate the process. -/
theorem log_appends_when_writable (env : LogEnv) (now msg : String)
    (h1 : env.mkdirFails = false) (h2 : env.openFails = false) (h3 : env.writeFails = false) :
    managerLog env now msg
      = Except.ok { env with lines := env.lines ++ [now ++ ": " ++ msg] }
    ∧ watcherLog env now msg
      = Except.ok { env with lines := env.lines ++ [now ++ " [watcher] " ++ msg] } := by
  constructor <;> simp [managerLog, watcherLog, h1, h2, h3]

/-- A writable log-file environment holding one prior line. -/
def writableLogEnv : LogEnv :=
  { mkdirFails := false, openFails := false, writeFails := false, lines := ["old line"] }

theorem log_appends_when_writable_witness :
    (writableLogEnv.mkdirFails = false
     ∧ writableLogEnv.openFails = false
     ∧ writableLogEnv.writeFails = false)
    ∧ (managerLog writableLogEnv "Mon Jan 1 10:00:00 2026" "Copied: x"
        = Except.ok { writableLogEnv with
            lines := writableLogEnv.lines ++ ["Mon Jan 1 10:00:00 2026" ++ ": " ++ "Copied: x"] }
       ∧ watcherLog writableLogEnv "2026-01-01 10:00:00" "USB watcher started"
        = Except.ok { writableLogEnv with
            lines := writableLogEnv.lines
              ++ ["2026-01-01 10:00:00" ++ " [watcher] " ++ "USB watcher started"] }) :=
  ⟨⟨rfl, rfl, rfl⟩,
   (log_appends_when_writable writableLogEnv "Mon Jan 1 10:00:00 2026" "Copied: x" rfl rfl rfl).1,
   (log_appends_when_writable writableLogEnv "2026-01-01 10:00:00" "USB watcher started"
      rfl rfl rfl).2⟩
